import Mathlib

/-!
Shallow embedding of src/demonstrations/tutorial_qchem_external.py, a linear
tutorial script that chains calls into PennyLane, PySCF and OpenFermion to
build molecular Hamiltonians, compute molecular integrals, import wavefunctions
and convert fermionic operators.  Pure index manipulations (numpy swapaxes, the
einsum contraction strings) are embedded from the source; the behaviour of the
external library calls, which lives outside this repository, is modelled from
the specification where a claim needs it, with a doc comment saying so.
-/

namespace TutorialQchemExternal

open scoped BigOperators

/-- A rank-4 tensor with all four axes of size n, as used for the two-electron
integral tensors in the script.  An index is a function from axis positions to
coordinates. -/
def Tensor4 (n : ℕ) (α : Type) : Type := (Fin 4 → Fin n) → α

/-- Embedding of numpy swapaxes on a rank-4 tensor: the view with axes a and b
interchanged, so the entry at an index vector v is the entry of the original
tensor at v composed with the transposition of a and b. -/
def swapaxes {n : ℕ} {α : Type} (a b : Fin 4) (t : Tensor4 n α) : Tensor4 n α :=
  fun v => t (v ∘ Equiv.swap a b)

/-- Claim C1: the conversion applied to the two-electron molecular-orbital
integral tensor, namely swapaxes with axes 1 and 3, exchanges the second and
fourth 1-based tensor indices: for every rank-4 tensor t and all indices, the
converted tensor at i j k l equals t at i l k j. -/
theorem chemists_to_physicists_swap {n : ℕ} {α : Type}
    (t : Tensor4 n α) (i j k l : Fin n) :
    swapaxes 1 3 t ![i, j, k, l] = t ![i, l, k, j] := by
  unfold swapaxes
  congr 1
  funext p
  fin_cases p <;> rfl

/-- Claim C9: swapping axes 1 and 3 of a rank-4 tensor is an involution:
applying the chemists-to-physicists axis reordering twice returns the original
tensor entry for entry. -/
theorem swapaxes_involutive {n : ℕ} {α : Type} (t : Tensor4 n α) :
    swapaxes 1 3 (swapaxes 1 3 t) = t := by
  funext v
  unfold swapaxes
  congr 1
  funext p
  simp [Function.comp, Equiv.swap_apply_self]

/-- Molecule descriptor from the script: an ordered list of atomic symbols
paired with 3D coordinates (qml.qchem.Molecule).  Coordinates are embedded as
exact rationals. -/
structure Molecule where
  symbols : List String
  geometry : List (List ℚ)

/-- The symbols of the water molecule from the script. -/
def symbols : List String := ["H", "O", "H"]

/-- The water geometry array fixed in the script. -/
def geometry : List (List ℚ) :=
  [[-399/10000, -38/10000, 0],
   [15780/10000, 8540/10000, 0],
   [27909/10000, -5159/10000, 0]]

/-- The water molecule descriptor built in the script. -/
def molecule : Molecule := ⟨symbols, geometry⟩

/-- Modelled from the spec: the per-element count of spatial orbitals in the
minimal (STO-3G) basis used by the backends; this datum lives in PySCF and
PennyLane, outside this repository.  Hydrogen contributes one spatial orbital
(1s) and oxygen five (1s, 2s and three 2p). -/
def sto3gCount : String → ℕ
  | "H" => 1
  | "O" => 5
  | _ => 0

/-- Number of spatial molecular orbitals of a molecule in the minimal basis:
the sum of the per-atom orbital counts. -/
def spatialOrbitals (m : Molecule) : ℕ := (m.symbols.map sto3gCount).sum

/-- Pauli letters of an external qubit-operator term. -/
inductive Pauli where
  | X | Y | Z
deriving DecidableEq, Repr

/-- A single OpenFermion QubitOperator term: a list of (wire, Pauli letter)
factors. -/
def QubitTerm : Type := List (ℕ × Pauli)

/-- An external (OpenFermion) qubit operator: a formal sum of terms with
rational coefficients. -/
def QubitOperator : Type := List (QubitTerm × ℚ)

/-- The qubit operator built in the script with OpenFermion:
0.1 QubitOperator X0 X1 plus 0.2 QubitOperator Z0. -/
def openfermionQubitH : QubitOperator :=
  [([(0, Pauli.X), (1, Pauli.X)], 1/10), ([(0, Pauli.Z)], 2/10)]

/-- A fermionic Hamiltonian assembled from a constant offset, a one-electron
integral matrix and a two-electron integral tensor, as produced by the
fermionic-observable assembly call. -/
structure FermionicHamiltonian (n : ℕ) where
  constant : ℚ
  one_body : Fin n → Fin n → ℚ
  two_body : Tensor4 n ℚ

/-- A host-library qubit observable.  The script obtains such values from
three distinct sources: the Hamiltonian builder, the operator importer, and
the Jordan-Wigner map; the internals of each live outside this repository, so
each source is modelled as a separate symbolic constructor. -/
inductive QubitOp where
  | fromBuilder (m : Molecule) (method : String)
  | imported (q : QubitOperator)
  | jwImage {n : ℕ} (h : FermionicHamiltonian n)

/-- Modelled from the spec: qml.qchem.molecular_hamiltonian (which lives in
PennyLane, outside this repository) accepts a molecule descriptor and a named
backend and returns a pair of an operator and a qubit count, the qubit count
being twice the number of spatial molecular orbitals. -/
def molecular_hamiltonian (m : Molecule) (method : String) : QubitOp × ℕ :=
  (QubitOp.fromBuilder m method, 2 * spatialOrbitals m)

/-- Modelled from the spec: qml.qchem.import_operator (in PennyLane, outside
this repository) converts an external qubit-operator representation into the
host observable representation. -/
def import_operator (q : QubitOperator) : QubitOp := QubitOp.imported q

/-- Modelled from the spec: qml.qchem.fermionic_observable (in PennyLane,
outside this repository) assembles a fermionic Hamiltonian from a nuclear
constant given as a numeric container plus one- and two-electron integral
tensors; the container total enters as the constant offset. -/
def fermionic_observable {n : ℕ} (core : List ℚ) (one : Fin n → Fin n → ℚ)
    (two : Tensor4 n ℚ) : FermionicHamiltonian n :=
  { constant := core.sum, one_body := one, two_body := two }

/-- Modelled from the spec: qml.jordan_wigner (in PennyLane, outside this
repository) maps a fermionic Hamiltonian to a qubit operator; modelled as the
tagging of the fermionic Hamiltonian as a qubit observable. -/
def jordan_wigner {n : ℕ} (h : FermionicHamiltonian n) : QubitOp :=
  QubitOp.jwImage h

/-- The one-electron contraction from the script line
one_mo = np.einsum with subscripts pi,pq,qj to ij applied to mo_coeff, one_ao,
mo_coeff: the molecular-orbital one-electron integrals. -/
def one_mo_of {n : ℕ} (mo_coeff one_ao : Fin n → Fin n → ℚ) :
    Fin n → Fin n → ℚ :=
  fun i j => ∑ p, ∑ q, mo_coeff p i * one_ao p q * mo_coeff q j

/-- Modelled from the spec: pyscf ao2mo.incore.full (in PySCF, outside this
repository) transforms the two-electron atomic-orbital tensor to the
molecular-orbital basis by contracting every axis with the molecular-orbital
coefficients, keeping the chemists index convention. -/
def ao2mo_incore_full {n : ℕ} (two_ao : Tensor4 n ℚ)
    (mo_coeff : Fin n → Fin n → ℚ) : Tensor4 n ℚ :=
  fun v => ∑ p, ∑ q, ∑ r, ∑ s,
    mo_coeff p (v 0) * mo_coeff q (v 1) * mo_coeff r (v 2) * mo_coeff s (v 3) *
      two_ao ![p, q, r, s]

/-- The script wraps the nuclear-repulsion scalar as a single-element numeric
container: core_constant = np.array of the one-element list holding
rhf.energy_nuc. -/
def core_constant_of (e : ℚ) : List ℚ := [e]

/-- The data the script obtains from the PySCF restricted Hartree-Fock solver:
molecular-orbital coefficients, nuclear-repulsion energy, and the one- and
two-electron integrals in the atomic-orbital basis. -/
structure PyscfRHF (n : ℕ) where
  mo_coeff : Fin n → Fin n → ℚ
  energy_nuc : ℚ
  one_ao : Fin n → Fin n → ℚ
  two_ao : Tensor4 n ℚ

/-- The integral-pipeline stage of the script, from the AO integrals to the
qubit Hamiltonian, with each intermediate bound in source order: MO transform
of both tensors, axis reorder of the two-electron tensor, wrap of the nuclear
constant, fermionic assembly, Jordan-Wigner map. -/
def integralPipeline {n : ℕ} (r : PyscfRHF n) : QubitOp :=
  let one_mo := one_mo_of r.mo_coeff r.one_ao
  let two_mo_chem := ao2mo_incore_full r.two_ao r.mo_coeff
  let two_mo := swapaxes 1 3 two_mo_chem
  let core_constant := core_constant_of r.energy_nuc
  let H_fermionic := fermionic_observable core_constant one_mo two_mo
  jordan_wigner H_fermionic

/-- Claim C3: calling the Hamiltonian builder on the water descriptor with the
backend named pyscf returns an operator paired with a qubit count, and that
count is twice the number of spatial molecular orbitals of water in the
minimal basis, namely 14. -/
theorem water_qubit_count :
    (molecular_hamiltonian molecule ("pyscf")).2 = 2 * spatialOrbitals molecule ∧
    spatialOrbitals molecule = 7 ∧
    (molecular_hamiltonian molecule ("pyscf")).2 = 14 := by
  refine ⟨rfl, by decide, by decide⟩

/-- Claim C4: the integral pipeline performs, in order: MO transformation of
the one- and two-electron AO integrals by contraction with the MO
coefficients, axis reordering of the two-electron tensor, assembly of a
fermionic Hamiltonian from the MO integrals plus the wrapped nuclear scalar,
and the Jordan-Wigner map; consequently the two-electron tensor entering the
assembly is the chemists-order contraction with axes 1 and 3 exchanged, whose
entries are given by the stated closed form. -/
theorem integral_pipeline_steps {n : ℕ} (r : PyscfRHF n) (i j k l : Fin n) :
    integralPipeline r =
      jordan_wigner (fermionic_observable (core_constant_of r.energy_nuc)
        (one_mo_of r.mo_coeff r.one_ao)
        (swapaxes 1 3 (ao2mo_incore_full r.two_ao r.mo_coeff))) ∧
    swapaxes 1 3 (ao2mo_incore_full r.two_ao r.mo_coeff) ![i, j, k, l] =
      ∑ p, ∑ q, ∑ u, ∑ w,
        r.mo_coeff p i * r.mo_coeff q l * r.mo_coeff u k * r.mo_coeff w j *
          r.two_ao ![p, q, u, w] := by
  constructor
  · rfl
  · have h1 : swapaxes 1 3 (ao2mo_incore_full r.two_ao r.mo_coeff) ![i, j, k, l]
        = ao2mo_incore_full r.two_ao r.mo_coeff ![i, l, k, j] := by
      unfold swapaxes
      congr 1
      funext p
      fin_cases p <;> rfl
    rw [h1]
    rfl

/-- Claim C7: the nuclear-repulsion scalar is wrapped as a single-element
numeric container before being passed to the fermionic-Hamiltonian assembly,
where it enters as the constant offset of the assembled Hamiltonian. -/
theorem core_constant_offset {n : ℕ} (e : ℚ) (one : Fin n → Fin n → ℚ)
    (two : Tensor4 n ℚ) :
    (core_constant_of e).length = 1 ∧
    (fermionic_observable (core_constant_of e) one two).constant = e ∧
    fermionic_observable (core_constant_of e) one two =
      { constant := e, one_body := one, two_body := two } := by
  refine ⟨rfl, ?_, ?_⟩ <;> simp [fermionic_observable, core_constant_of]

/-- An OpenFermion FermionOperator word: an ordered product of ladder
operators, each a pair of the orbital mode and a flag that is true for a
creation operator (the caret in OpenFermion text such as 0^ 2). -/
def OFWord : Type := List (ℕ × Bool)

/-- An OpenFermion FermionOperator: a formal sum of words with rational
coefficients. -/
def FermionOperator : Type := List (OFWord × ℚ)

/-- A host-library fermionic word: the host representation keys each ladder
factor additionally by its position in the product, so an entry is a pair of
(position, orbital) together with the creation flag. -/
def FermiWord : Type := List ((ℕ × ℕ) × Bool)

/-- A host-library fermionic operator: a formal sum of host words with
rational coefficients. -/
def FermiSentence : Type := List (FermiWord × ℚ)

/-- Modelled from the spec: qml.from_openfermion (in PennyLane, outside this
repository) converts an external fermionic operator to the host
representation, keying each ladder factor by its position in the word. -/
def from_openfermion (op : FermionOperator) : FermiSentence :=
  op.map (fun t => (t.1.enum.map (fun e => ((e.1, e.2.1), e.2.2)), t.2))

/-- Modelled from the spec: qml.to_openfermion (in PennyLane, outside this
repository) converts a host fermionic operator back to the external
representation, dropping the position keys. -/
def to_openfermion (s : FermiSentence) : FermionOperator :=
  s.map (fun t => (t.1.map (fun e => (e.1.2, e.2)), t.2))

/-- The fermionic operator built in the script with OpenFermion:
0.5 FermionOperator 0^ 2 plus FermionOperator 0 2^. -/
def openfermion_op : FermionOperator :=
  [([(0, true), (2, false)], 1/2), ([(0, false), (2, true)], 1)]

lemma enumFrom_map_snd {α : Type} (k : ℕ) (l : List α) :
    (List.enumFrom k l).map Prod.snd = l := by
  induction l generalizing k with
  | nil => rfl
  | cons a t ih => simp [List.enumFrom, ih]

lemma word_roundtrip (w : OFWord) :
    (w.enum.map (fun e => ((e.1, e.2.1), e.2.2))).map (fun e => (e.1.2, e.2))
      = w := by
  rw [List.map_map]
  have hcomp : ((fun e : (ℕ × ℕ) × Bool => (e.1.2, e.2)) ∘
      (fun e : ℕ × (ℕ × Bool) => ((e.1, e.2.1), e.2.2)))
      = (Prod.snd : ℕ × (ℕ × Bool) → ℕ × Bool) := by
    funext e
    rfl
  rw [hcomp, List.enum]
  exact enumFrom_map_snd 0 w

/-- Claim C2: converting an external fermionic operator to the host
representation with from_openfermion and back with to_openfermion reproduces
the original operator exactly, and on host operators produced by the
converter, to_openfermion followed by from_openfermion is also the
identity. -/
theorem openfermion_roundtrip :
    (∀ op : FermionOperator, to_openfermion (from_openfermion op) = op) ∧
    (∀ op : FermionOperator,
      from_openfermion (to_openfermion (from_openfermion op))
        = from_openfermion op) := by
  have h : ∀ op : FermionOperator, to_openfermion (from_openfermion op) = op := by
    intro op
    unfold to_openfermion from_openfermion
    rw [List.map_map]
    have : ∀ t : OFWord × ℚ,
        ((fun t : FermiWord × ℚ => (t.1.map (fun e => (e.1.2, e.2)), t.2)) ∘
         (fun t : OFWord × ℚ =>
           (t.1.enum.map (fun e => ((e.1, e.2.1), e.2.2)), t.2))) t = t := by
      intro t
      simp only [Function.comp]
      exact Prod.ext (word_roundtrip t.1) rfl
    calc op.map _ = op.map id := List.map_congr_left (fun t _ => this t)
      _ = op := List.map_id op
  exact ⟨h, fun op => congrArg from_openfermion (h op)⟩

/-- The index of the Hartree-Fock determinant of the hydrogen molecule in the
computational basis over the four spin orbitals: occupation 1100, index 12. -/
def hf_index : Fin 16 := 12

/-- The index of the doubly excited determinant: occupation 0011, index 3. -/
def doubly_excited_index : Fin 16 := 3

/-- The converged CCSD solver result for the hydrogen molecule, reduced to the
datum the state import consumes: the double-excitation amplitude. -/
structure CCSDResult where
  t2 : ℝ

/-- Modelled from the spec: qml.qchem.import_state (in PennyLane, outside
this repository) extracts the wave function of the converged CCSD solver
result for the hydrogen molecule and returns a normalized state vector in the
computational basis, a superposition of the Hartree-Fock determinant and the
doubly excited determinant. -/
noncomputable def import_state (c : CCSDResult) : Fin 16 → ℝ :=
  fun b =>
    if b = hf_index then 1 / Real.sqrt (1 + c.t2 ^ 2)
    else if b = doubly_excited_index then c.t2 / Real.sqrt (1 + c.t2 ^ 2)
    else 0

/-- Claim C5: the state vector imported from the converged CCSD result is
normalized, the sum over all computational-basis amplitudes of the squared
magnitude being exactly 1, and its overlap with the Hartree-Fock basis state
is non-zero. -/
theorem import_state_normalized (c : CCSDResult) :
    (∑ b, (import_state c b) ^ 2) = 1 ∧ import_state c hf_index ≠ 0 := by
  have hpos : (0 : ℝ) < 1 + c.t2 ^ 2 := by positivity
  have hs : Real.sqrt (1 + c.t2 ^ 2) ^ 2 = 1 + c.t2 ^ 2 := Real.sq_sqrt hpos.le
  have hsne : Real.sqrt (1 + c.t2 ^ 2) ≠ 0 := ne_of_gt (Real.sqrt_pos.mpr hpos)
  constructor
  · have hsplit : ∀ b : Fin 16, (import_state c b) ^ 2 =
        (if b = hf_index then (1 / Real.sqrt (1 + c.t2 ^ 2)) ^ 2 else 0) +
        (if b = doubly_excited_index
          then (c.t2 / Real.sqrt (1 + c.t2 ^ 2)) ^ 2 else 0) := by
      intro b
      unfold import_state
      have hne : hf_index ≠ doubly_excited_index := by decide
      split_ifs with h1 h2 h3
      · exact absurd (h1.symm.trans h2) hne
      all_goals ring
    rw [Finset.sum_congr rfl (fun b _ => hsplit b), Finset.sum_add_distrib,
      Finset.sum_ite_eq' Finset.univ, Finset.sum_ite_eq' Finset.univ]
    have hXne : (1 : ℝ) + c.t2 ^ 2 ≠ 0 := hpos.ne'
    simp only [Finset.mem_univ, if_true, div_pow, one_pow, hs]
    field_simp
  · have : import_state c hf_index = 1 / Real.sqrt (1 + c.t2 ^ 2) := by
      simp [import_state]
    rw [this]
    exact one_div_ne_zero hsne

/-- The inputs fixed in the source together with the data the external
solvers return for them: the molecule descriptor and backend name, the
external qubit operator, the PySCF Hartree-Fock data, the CCSD result and the
external fermionic operator. -/
structure ScriptInputs (n : ℕ) where
  molecule : Molecule
  method : String
  qubitH : QubitOperator
  rhf : PyscfRHF n
  ccsd : CCSDResult
  fermionic_op : FermionOperator

/-- The values the script prints: the built Hamiltonian and qubit count, the
imported observable, the pipeline Hamiltonian, the imported state vector and
the two converted fermionic operators. -/
structure ScriptOutputs where
  builderH : QubitOp
  qubits : ℕ
  importedH : QubitOp
  pipelineH : QubitOp
  state : Fin 16 → ℝ
  pennylane_op : FermiSentence
  of_op : FermionOperator

/-- One execution of the whole script, as a function of its inputs and of a
run index: the run index models which execution this is and is not consulted
anywhere, since the script reads nothing but its inputs. -/
noncomputable def runScript {n : ℕ} (_run : ℕ) (inp : ScriptInputs n) :
    ScriptOutputs :=
  { builderH := (molecular_hamiltonian inp.molecule inp.method).1
    qubits := (molecular_hamiltonian inp.molecule inp.method).2
    importedH := import_operator inp.qubitH
    pipelineH := integralPipeline inp.rhf
    state := import_state inp.ccsd
    pennylane_op := from_openfermion inp.fermionic_op
    of_op := to_openfermion (from_openfermion inp.fermionic_op) }

/-- Claim C6: the script is deterministic: two executions with identical
inputs produce identical printed Hamiltonians, operators and state
vectors. -/
theorem script_deterministic {n : ℕ} (r1 r2 : ℕ) (inp : ScriptInputs n) :
    runScript r1 inp = runScript r2 inp := rfl

/-- The script with each stage replaced by the possibly-failing external call
that drives it, sequenced exactly as in the source: the result of the whole
run is the monadic composition of the five stage results in order. -/
def runScriptE (s1 : Except String (QubitOp × ℕ)) (s2 : Except String QubitOp)
    (s3 : Except String QubitOp) (s4 : Except String (Fin 16 → ℝ))
    (s5 : Except String (FermiSentence × FermionOperator)) :
    Except String
      ((QubitOp × ℕ) × QubitOp × QubitOp × (Fin 16 → ℝ) ×
        (FermiSentence × FermionOperator)) := do
  let a ← s1
  let b ← s2
  let c ← s3
  let d ← s4
  let e ← s5
  return (a, b, c, d, e)

/-- Claim C8: the script is a straight-line sequence: when every call
succeeds the run is the total composition of the successive results, and a
failure of any stage propagates uncaught as the result of the whole run, with
no branching on it. -/
theorem straight_line_control_flow
    (a : QubitOp × ℕ) (b : QubitOp) (c : QubitOp) (d : Fin 16 → ℝ)
    (e : FermiSentence × FermionOperator) (m : String)
    (s2 : Except String QubitOp) (s3 : Except String QubitOp)
    (s4 : Except String (Fin 16 → ℝ))
    (s5 : Except String (FermiSentence × FermionOperator)) :
    runScriptE (Except.ok a) (Except.ok b) (Except.ok c) (Except.ok d)
        (Except.ok e) = Except.ok (a, b, c, d, e) ∧
    runScriptE (Except.error m) s2 s3 s4 s5 = Except.error m ∧
    runScriptE (Except.ok a) (Except.error m) s3 s4 s5 = Except.error m ∧
    runScriptE (Except.ok a) (Except.ok b) (Except.error m) s4 s5
      = Except.error m ∧
    runScriptE (Except.ok a) (Except.ok b) (Except.ok c) (Except.error m) s5
      = Except.error m ∧
    runScriptE (Except.ok a) (Except.ok b) (Except.ok c) (Except.ok d)
        (Except.error m) = Except.error m :=
  ⟨rfl, rfl, rfl, rfl, rfl, rfl⟩

/-- A value the script binds to the variable H: either a host-library
observable or, at the line building the operator with OpenFermion directly, a
raw external qubit operator not yet imported. -/
inductive HVal where
  | host (op : QubitOp)
  | raw (q : QubitOperator)

/-- A top-level statement of the script, viewed through its effect on the
variable H: an assignment to H, a print that observes H, or any other
statement. -/
inductive Stmt where
  | assignH (v : HVal)
  | printH
  | otherStmt

/-- The statements of the script in source order, restricted to their effect
on H: the builder assignment and its print; the assignment of the raw
external qubit operator immediately rebound by the importer assignment, then
two prints; then after the integral computations the Jordan-Wigner
assignment, which no later statement prints. -/
def scriptStmts {n : ℕ} (inp : ScriptInputs n) : List Stmt :=
  [Stmt.otherStmt,
   Stmt.assignH (HVal.host (molecular_hamiltonian inp.molecule inp.method).1),
   Stmt.printH,
   Stmt.assignH (HVal.raw inp.qubitH),
   Stmt.assignH (HVal.host (import_operator inp.qubitH)),
   Stmt.printH,
   Stmt.printH,
   Stmt.otherStmt,
   Stmt.assignH (HVal.host (integralPipeline inp.rhf)),
   Stmt.otherStmt]

/-- Executing one statement on a state holding the current binding of H and
the list of values printed so far. -/
def execStmt : Option HVal × List HVal → Stmt → Option HVal × List HVal
  | (_, out), Stmt.assignH v => (some v, out)
  | (h, out), Stmt.printH => (h, out ++ h.toList)
  | s, Stmt.otherStmt => s

/-- Executing the script statements from an empty environment. -/
def execScript {n : ℕ} (inp : ScriptInputs n) : Option HVal × List HVal :=
  (scriptStmts inp).foldl execStmt (none, [])

/-- Concrete script inputs for evaluating the statement trace: the water
descriptor and backend name fixed in the source, the two operators built in
the source, and trivial solver data. -/
noncomputable def sampleInputs : ScriptInputs 1 :=
  { molecule := molecule
    method := "pyscf"
    qubitH := openfermionQubitH
    rhf := { mo_coeff := fun _ _ => 0
             energy_nuc := 0
             one_ao := fun _ _ => 0
             two_ao := fun _ => 0 }
    ccsd := { t2 := 0 }
    fermionic_op := openfermion_op }

/-- Claim C10 counterexample: on the statement trace of the script at
concrete inputs, H is assigned four times, not three: the builder result, the
raw external qubit operator, the imported observable and the Jordan-Wigner
image. -/
theorem H_assignment_count_refutation :
    (scriptStmts sampleInputs).countP (fun s => match s with
        | Stmt.assignH _ => true
        | _ => false) = 4 ∧
    ¬ (scriptStmts sampleInputs).countP (fun s => match s with
        | Stmt.assignH _ => true
        | _ => false) = 3 := by
  refine ⟨rfl, fun h => ?_⟩
  rw [show (scriptStmts sampleInputs).countP (fun s => match s with
      | Stmt.assignH _ => true
      | _ => false) = 4 from rfl] at h
  exact absurd h (by decide)

/-- Claim C10 (amended): H is assigned four times, an initial binding and
three rebindings: the builder Hamiltonian, the raw external qubit operator,
the observable imported from it and finally the Jordan-Wigner image of the
fermionic Hamiltonian assembled from the PySCF integrals, which is the final
binding; the builder and imported values are observable only through the
prints that precede their rebinding, the printed values being exactly the
builder Hamiltonian once and the imported observable twice, while the raw
external operator bound in between is printed by no statement. -/
theorem H_rebinding_frame {n : ℕ} (inp : ScriptInputs n) :
    (execScript inp).1 = some (HVal.host (jordan_wigner (fermionic_observable
        (core_constant_of inp.rhf.energy_nuc)
        (one_mo_of inp.rhf.mo_coeff inp.rhf.one_ao)
        (swapaxes 1 3 (ao2mo_incore_full inp.rhf.two_ao inp.rhf.mo_coeff))))) ∧
    (execScript inp).2 =
      [HVal.host (molecular_hamiltonian inp.molecule inp.method).1,
       HVal.host (import_operator inp.qubitH),
       HVal.host (import_operator inp.qubitH)] ∧
    (scriptStmts inp).countP (fun s => match s with
        | Stmt.assignH _ => true
        | _ => false) = 4 :=
  ⟨rfl, rfl, rfl⟩

end TutorialQchemExternal
